import Mathlib

/-!
# NovaChat session-management core: a shallow embedding

This file embeds the session-management core of `src/backend/main.py` (the
two in-memory stores, the chat turn, and the query operations) as executable
Lean definitions, and proves the specification's claims about them.

Modelling conventions:
* Python strings are `List Char`; `str.lower()` is `Char.toLower` mapped over
  the characters (Python lowercases beyond ASCII, but no claim depends on
  non-ASCII input).
* Python dicts (`store`, `session_metadata`) are insertion-ordered
  association lists: assignment to an existing key updates in place,
  assignment to a fresh key appends, `del` removes the entry.
* `datetime.now()` is an abstract `Nat` clock supplied to each operation;
  processing time is likewise a supplied `Nat`.
* The LangChain `RunnableWithMessageHistory` named `conversation` is modelled
  by its documented behaviour: `invoke` reads the session history through
  `get_history` (which lazily creates the session), runs the model on the
  prior history plus the new input, and on success appends the human and AI
  messages to the history; on a model error nothing is appended and the
  error propagates.  The model itself is a parameter
  `List Message → List Char → Except (List Char) (List Char)`.
-/

namespace NovaChat

/-! ## String helpers mirroring the Python primitives -/

/-- `s.lower()` — character-wise lowercasing. -/
def lowerStr (s : List Char) : List Char := s.map Char.toLower

/-- Python `needle in hay` for strings: substring test (an empty needle is
always contained). -/
def isSubstr (needle : List Char) : List Char → Bool
  | [] => needle.isEmpty
  | c :: t => needle.isPrefixOf (c :: t) || isSubstr needle t

/-- Helper for `pyCount`: counts left-to-right non-overlapping occurrences of
the non-empty `needle`.  The fuel argument (initially the haystack length)
only forces structural recursion; each step consumes at least one character,
so the scan is never cut short. -/
def pyCountAux (needle : List Char) : Nat → List Char → Nat
  | 0, _ => 0
  | _ + 1, [] => 0
  | fuel + 1, c :: t =>
    if needle.isPrefixOf (c :: t) then
      1 + pyCountAux needle fuel ((c :: t).drop needle.length)
    else pyCountAux needle fuel t

/-- Python `hay.count(needle)`: non-overlapping occurrence count, with the
empty-needle convention `s.count("") == len(s) + 1`. -/
def pyCount (needle hay : List Char) : Nat :=
  match needle with
  | [] => hay.length + 1
  | n :: ns => pyCountAux (n :: ns) hay.length hay

/-- Helper for `countWords`: the flag records whether we are inside a word. -/
def countWordsAux : Bool → List Char → Nat
  | _, [] => 0
  | inw, c :: t =>
    if c.isWhitespace then countWordsAux false t
    else (if inw then 0 else 1) + countWordsAux true t

/-- Python `len(s.split())`: number of maximal whitespace-free runs. -/
def countWords (s : List Char) : Nat := countWordsAux false s

/-- The string `s` contains the given parts as disjoint substrings in order. -/
def containsInOrder : List Char → List (List Char) → Prop
  | _, [] => True
  | s, p :: ps => ∃ pre rest, s = pre ++ p ++ rest ∧ containsInOrder rest ps

/-! ## Insertion-ordered dictionaries (Python `dict`) -/

/-- `d[k]` lookup, `None` when absent. -/
def alookup (k : String) : List (String × α) → Option α
  | [] => none
  | (k', v) :: t => if k' = k then some v else alookup k t

/-- `d[k] = v`: update in place when the key exists, else append. -/
def ainsert (k : String) (v : α) : List (String × α) → List (String × α)
  | [] => [(k, v)]
  | (k', v') :: t => if k' = k then (k, v) :: t else (k', v') :: ainsert k v t

/-- `del d[k]` (a no-op when the key is absent, callers guard with `in`). -/
def aerase (k : String) : List (String × α) → List (String × α)
  | [] => []
  | (k', v') :: t => if k' = k then aerase k t else (k', v') :: aerase k t

/-! ## Data model -/

/-- Who produced a message (`HumanMessage` vs `AIMessage`). -/
inductive Sender where
  | user
  | assistant
deriving DecidableEq, Repr

/-- One stored chat message. -/
structure Message where
  sender : Sender
  content : List Char
deriving DecidableEq, Repr

/-- The per-session metadata dict created in `get_history`. -/
structure Metadata where
  created_at : Nat
  updated_at : Nat
  title : List Char
  message_count : Nat
  is_starred : Bool
  is_archived : Bool
  tags : List (List Char)
deriving DecidableEq, Repr

/-- The metadata assigned to a freshly created session (main.py lines 61-69). -/
def defaultMetadata (now : Nat) : Metadata :=
  { created_at := now
    updated_at := now
    title := "New Chat".data
    message_count := 0
    is_starred := false
    is_archived := false
    tags := [] }

/-- The global mutable state: the `store` and `session_metadata` dicts. -/
structure St where
  store : List (String × List Message)
  metadata : List (String × Metadata)
deriving DecidableEq, Repr

/-- The empty initial state (both dicts start as `{}`). -/
def initSt : St := { store := [], metadata := [] }

/-! ## Core operations -/

/-- `get_history(session_id)`: returns the session's history, creating the
session (empty history, default metadata) when the id is unknown to `store`. -/
def get_history (now : Nat) (sid : String) (st : St) : List Message × St :=
  match alookup sid st.store with
  | some h => (h, st)
  | none =>
      ([], { store := ainsert sid [] st.store
             metadata := ainsert sid (defaultMetadata now) st.metadata })

/-- The external model collaborator: given the prior history and the new
input, either fails with an error detail or returns the reply text. -/
def ModelFn : Type :=
  List Message → List Char → Except (List Char) (List Char)

/-- Optional per-request generation configuration. -/
structure GenConfig where
  temperature : Option ℚ
deriving DecidableEq, Repr

/-- The reply envelope of one chat turn (`message` plus `metadata`). -/
structure ChatResult where
  message : List Char
  model : List Char
  tokens : Nat
  temperature : ℚ
  processing_time : Nat
deriving DecidableEq, Repr

/-- The typed failure of a configured chat turn (the code raises
`HTTPException(500, "Chat processing failed: ...")`; the spec calls it
`ModelInvocationError`). -/
inductive ChatErr where
  | modelInvocation (detail : List Char)
deriving DecidableEq, Repr

/-- A single straight quote character, used in the development-mode reply. -/
def sq : Char := Char.ofNat 39

/-- Text before the echoed input in the development-mode fallback reply. -/
def devPrefix : List Char :=
  "Hello! I".data ++ [sq] ++ "m Afridi.ai. You said: ".data ++ [sq]

/-- Text after the echoed input in the development-mode fallback reply. -/
def devSuffix : List Char :=
  [sq] ++ ". I".data ++ [sq] ++
    "m currently in development mode. Please configure your Google AI API key to enable full functionality.".data

/-- `config.get('temperature', 0.7) if config else 0.7`. -/
def temperatureOf (cfg : Option GenConfig) : ℚ :=
  match cfg with
  | some c => c.temperature.getD (7 / 10)
  | none => 7 / 10

/-- The title truncation of main.py line 121:
`user_input[:50] + ("..." if len(user_input) > 50 else "")`. -/
def truncTitle (input : List Char) : List Char :=
  input.take 50 ++ (if 50 < input.length then "...".data else [])

/-- The metadata update of main.py lines 114-122, run after a successful
model invocation when the session id is present in `session_metadata`. -/
def updateMetaAfterTurn (now : Nat) (input : List Char) (m : Metadata) : Metadata :=
  let m1 := { m with updated_at := now, message_count := m.message_count + 2 }
  if m1.title = "New Chat".data then { m1 with title := truncTitle input } else m1

/-- `chat(session_id, user_input, config)` — one chat turn.

`mf = none` models the unconfigured development mode (`conversation is None`):
the fallback reply is returned and no state is touched.  With `mf = some gen`
the turn goes through `conversation.invoke`, which first reads the history via
`get_history` (lazily creating the session), then runs the model; on success
the human and AI messages are appended to the history and the metadata is
updated, on failure the error propagates with no append. -/
def chat (mf : Option ModelFn) (now procTime : Nat) (sid : String)
    (user_input : List Char) (cfg : Option GenConfig) (st : St) :
    Except ChatErr ChatResult × St :=
  match mf with
  | none =>
      (Except.ok
        { message := devPrefix ++ user_input ++ devSuffix
          model := "development-mode".data
          tokens := 0
          temperature := 7 / 10
          processing_time := 0 }, st)
  | some gen =>
      let hs := get_history now sid st
      match gen hs.1 user_input with
      | Except.error e =>
          (Except.error (ChatErr.modelInvocation ("Chat processing failed: ".data ++ e)),
            hs.2)
      | Except.ok reply =>
          let st2 : St :=
            { hs.2 with
                store := ainsert sid
                  (hs.1 ++ [⟨Sender.user, user_input⟩, ⟨Sender.assistant, reply⟩])
                  hs.2.store }
          let st3 : St :=
            match alookup sid st2.metadata with
            | some m =>
                { st2 with metadata := ainsert sid (updateMetaAfterTurn now user_input m) st2.metadata }
            | none => st2
          (Except.ok
            { message := reply
              model := "gemini-1.5-flash".data
              tokens := countWords reply
              temperature := temperatureOf cfg
              processing_time := procTime }, st3)

/-- `reset_session_endpoint`: delete the session from both dicts (each guarded
by an `in` check, so absent ids are a no-op); always reports success. -/
def reset_session (sid : String) (st : St) : St :=
  { store := aerase sid st.store, metadata := aerase sid st.metadata }

/-- `delete_session_endpoint`: delete from both dicts; the returned flag is
whether either dict contained the id. -/
def delete_session (sid : String) (st : St) : Bool × St :=
  ((alookup sid st.store).isSome || (alookup sid st.metadata).isSome,
    { store := aerase sid st.store, metadata := aerase sid st.metadata })

/-- `update_session_title`: set the title and bump `updated_at` when the id is
known to `session_metadata`; the returned flag is success. -/
def update_session_title (now : Nat) (sid : String) (title : List Char) (st : St) :
    Bool × St :=
  match alookup sid st.metadata with
  | some m =>
      (true,
        { st with metadata := ainsert sid { m with title := title, updated_at := now } st.metadata })
  | none => (false, st)

/-! ## Query operations -/

/-- A stable-enough insertion sort, descending by a `Nat` key (Python
`list.sort(key=..., reverse=True)`); only order and membership matter to the
claims. -/
def insertDescBy (key : α → Nat) (x : α) : List α → List α
  | [] => [x]
  | y :: ys => if key y < key x then x :: y :: ys else y :: insertDescBy key x ys

/-- Sort a list descending by a `Nat` key. -/
def sortDescBy (key : α → Nat) : List α → List α
  | [] => []
  | x :: xs => insertDescBy key x (sortDescBy key xs)

/-- One row of the `GET /api/v1/sessions` response. -/
structure SessionSummary where
  id : String
  title : List Char
  created_at : Nat
  updated_at : Nat
  message_count : Nat
  is_starred : Bool
  is_archived : Bool
  tags : List (List Char)
deriving DecidableEq, Repr

/-- `get_sessions_endpoint`: one summary per `session_metadata` entry, sorted
by `updated_at`, most recent first. -/
def list_sessions (st : St) : List SessionSummary :=
  sortDescBy (fun s => s.updated_at)
    (st.metadata.map fun kv =>
      { id := kv.1
        title := kv.2.title
        created_at := kv.2.created_at
        updated_at := kv.2.updated_at
        message_count := kv.2.message_count
        is_starred := kv.2.is_starred
        is_archived := kv.2.is_archived
        tags := kv.2.tags })

/-- One search hit of `GET /api/v1/search`. -/
structure SearchResult where
  session_id : String
  index : Nat
  session_title : List Char
  sender : Sender
  content : List Char
  relevance_score : Nat
deriving DecidableEq, Repr

/-- The inner loop of `search_messages` over one session's messages,
enumerating from index `i`. -/
def searchSession (q : List Char) (sid : String) (title : List Char) :
    Nat → List Message → List SearchResult
  | _, [] => []
  | i, m :: rest =>
    if isSubstr (lowerStr q) (lowerStr m.content) then
      { session_id := sid
        index := i
        session_title := title
        sender := m.sender
        content := m.content
        relevance_score := pyCount (lowerStr q) (lowerStr m.content) }
        :: searchSession q sid title (i + 1) rest
    else searchSession q sid title (i + 1) rest

/-- The session title used in search results:
`session_metadata.get(sid, {}).get('title', 'Untitled')`. -/
def titleOf (sid : String) (st : St) : List Char :=
  match alookup sid st.metadata with
  | some m => m.title
  | none => "Untitled".data

/-- The ids visited by the search loop:
`[session_id] if session_id else store.keys()`. -/
def searchedIds (osid : Option String) (st : St) : List String :=
  match osid with
  | some s => [s]
  | none => st.store.map Prod.fst

/-- The matches one visited id contributes (`if sid in store` guard). -/
def gatherOne (q : List Char) (st : St) (sid : String) : List SearchResult :=
  match alookup sid st.store with
  | some hist => searchSession q sid (titleOf sid st) 0 hist
  | none => []

/-- All matches gathered before sorting and capping. -/
def searchGather (q : List Char) (osid : Option String) (st : St) :
    List SearchResult :=
  (searchedIds osid st).foldr (fun sid acc => gatherOne q st sid ++ acc) []

/-- `search_messages(query, session_id?)`: gather matches, sort by relevance
descending, keep the top 20. -/
def search_messages (q : List Char) (osid : Option String) (st : St) :
    List SearchResult :=
  (sortDescBy (fun r => r.relevance_score) (searchGather q osid st)).take 20

/-- A message view as exported (`id`, content, sender). -/
structure MessageView where
  id : String
  sender : Sender
  content : List Char
deriving DecidableEq, Repr

/-- The enumerated message views of a history, ids `f"{sid}_{i}"`. -/
def messageViews (sid : String) : Nat → List Message → List MessageView
  | _, [] => []
  | i, m :: rest =>
    { id := sid ++ "_" ++ toString i, sender := m.sender, content := m.content }
      :: messageViews sid (i + 1) rest

/-- The structured export payload (`{session_id, metadata, messages}`). -/
structure ExportPayload where
  session_id : String
  metadata : Option Metadata
  messages : List MessageView
deriving DecidableEq, Repr

/-- The outcome of `export_session`. -/
inductive ExportResult where
  | notFound
  | json (payload : ExportPayload)
  | txt (content : List Char)
deriving DecidableEq, Repr

/-- `"You"` for user messages, `"Afridi.ai"` otherwise. -/
def senderLabel : Sender → List Char
  | Sender.user => "You".data
  | Sender.assistant => "Afridi.ai".data

/-- The `"Sender: content"` lines of the plain-text export. -/
def renderMessages : List MessageView → List Char
  | [] => []
  | v :: rest => senderLabel v.sender ++ ": ".data ++ v.content ++ "\n\n".data
      ++ renderMessages rest

/-- The plain-text transcript (header, then one line per message). -/
def renderTxt (sid : String) (om : Option Metadata) (views : List MessageView) :
    List Char :=
  "Afridi.ai Conversation Export\n".data
    ++ "Session ID: ".data ++ sid.data ++ "\n".data
    ++ "Title: ".data
    ++ (match om with | some m => m.title | none => "Untitled".data)
    ++ "\n".data
    ++ "Created: ".data
    ++ (match om with | some m => (toString m.created_at).data | none => "Unknown".data)
    ++ "\n\n".data
    ++ renderMessages views

/-- `export_session(session_id, format)`: `notFound` when the id is absent
from `store`; the transcript branch is taken exactly when `format = "txt"`,
every other format value returns the structured payload. -/
def export_session (sid : String) (format : String) (st : St) : ExportResult :=
  match alookup sid st.store with
  | none => ExportResult.notFound
  | some hist =>
      let om := alookup sid st.metadata
      let views := messageViews sid 0 hist
      if format = "txt" then ExportResult.txt (renderTxt sid om views)
      else ExportResult.json { session_id := sid, metadata := om, messages := views }

/-! ## Reachable states -/

/-- States reachable from the empty initial state by the service's
operations. -/
inductive Reachable : St → Prop where
  | init : Reachable initSt
  | hist (now : Nat) (sid : String) {st : St} :
      Reachable st → Reachable (get_history now sid st).2
  | turn (mf : Option ModelFn) (now procTime : Nat) (sid : String)
      (input : List Char) (cfg : Option GenConfig) {st : St} :
      Reachable st → Reachable (chat mf now procTime sid input cfg st).2
  | reset (sid : String) {st : St} :
      Reachable st → Reachable (reset_session sid st)
  | delete (sid : String) {st : St} :
      Reachable st → Reachable (delete_session sid st).2
  | rename (now : Nat) (sid : String) (title : List Char) {st : St} :
      Reachable st → Reachable (update_session_title now sid title st).2

/-! ## Dictionary lemmas -/

theorem alookup_ainsert_self (k : String) (v : α) (m : List (String × α)) :
    alookup k (ainsert k v m) = some v := by
  induction m with
  | nil => simp [ainsert, alookup]
  | cons hd t ih =>
      obtain ⟨k', v'⟩ := hd
      by_cases h : k' = k
      · subst h; simp [ainsert, alookup]
      · simp [ainsert, alookup, h, ih]

theorem alookup_ainsert_ne {k k' : String} (h : k' ≠ k) (v : α)
    (m : List (String × α)) : alookup k (ainsert k' v m) = alookup k m := by
  induction m with
  | nil => simp [ainsert, alookup, h]
  | cons hd t ih =>
      obtain ⟨k'', v''⟩ := hd
      by_cases h2 : k'' = k'
      · subst h2; simp [ainsert, alookup, h]
      · by_cases h3 : k'' = k
        · subst h3; simp [ainsert, alookup, h2]
        · simp [ainsert, alookup, h2, h3, ih]

theorem alookup_aerase_self (k : String) (m : List (String × α)) :
    alookup k (aerase k m) = none := by
  induction m with
  | nil => simp [aerase, alookup]
  | cons hd t ih =>
      obtain ⟨k', v'⟩ := hd
      by_cases h : k' = k
      · simp [aerase, h, ih]
      · simp [aerase, alookup, h, ih]

theorem alookup_aerase_ne {k k' : String} (h : k' ≠ k) (m : List (String × α)) :
    alookup k (aerase k' m) = alookup k m := by
  induction m with
  | nil => simp [aerase]
  | cons hd t ih =>
      obtain ⟨k'', v''⟩ := hd
      by_cases h2 : k'' = k'
      · subst h2; simp [aerase, alookup, h, ih]
      · simp [aerase, alookup, h2, ih]

theorem alookup_isSome_iff_mem (k : String) (m : List (String × α)) :
    (alookup k m).isSome ↔ k ∈ m.map Prod.fst := by
  induction m with
  | nil => simp [alookup]
  | cons hd t ih =>
      obtain ⟨k', v'⟩ := hd
      by_cases h : k' = k
      · subst h; simp [alookup]
      · simp [alookup, h, ih, Ne.symm h]

/-! ## Sorting lemmas -/

theorem perm_insertDescBy (key : α → Nat) (x : α) (l : List α) :
    List.Perm (insertDescBy key x l) (x :: l) := by
  induction l with
  | nil => simp [insertDescBy]
  | cons y ys ih =>
      by_cases h : key y < key x
      · simp [insertDescBy, h]
      · simp only [insertDescBy, h, if_false]
        exact (ih.cons y).trans (List.Perm.swap x y ys)

theorem perm_sortDescBy (key : α → Nat) (l : List α) :
    List.Perm (sortDescBy key l) l := by
  induction l with
  | nil => simp [sortDescBy]
  | cons x xs ih =>
      exact (perm_insertDescBy key x (sortDescBy key xs)).trans (ih.cons x)

theorem mem_sortDescBy (key : α → Nat) (a : α) (l : List α) :
    a ∈ sortDescBy key l ↔ a ∈ l :=
  (perm_sortDescBy key l).mem_iff

theorem pairwise_insertDescBy (key : α → Nat) (x : α) {l : List α}
    (hl : l.Pairwise (fun a b => key b ≤ key a)) :
    (insertDescBy key x l).Pairwise (fun a b => key b ≤ key a) := by
  induction l with
  | nil => simp [insertDescBy]
  | cons y ys ih =>
      rcases List.pairwise_cons.mp hl with ⟨hy, hys⟩
      by_cases h : key y < key x
      · simp only [insertDescBy, if_pos h]
        refine List.pairwise_cons.mpr ⟨?_, hl⟩
        intro z hz
        rcases List.mem_cons.mp hz with rfl | hz
        · omega
        · have := hy z hz; omega
      · simp only [insertDescBy, if_neg h]
        refine List.pairwise_cons.mpr ⟨?_, ih hys⟩
        intro z hz
        rcases List.mem_cons.mp ((perm_insertDescBy key x ys).mem_iff.mp hz) with rfl | h2
        · omega
        · exact hy z h2

theorem pairwise_sortDescBy (key : α → Nat) (l : List α) :
    (sortDescBy key l).Pairwise (fun a b => key b ≤ key a) := by
  induction l with
  | nil => simp [sortDescBy]
  | cons x xs ih => exact pairwise_insertDescBy key x ih

/-! ## `get_history` lemmas -/

theorem get_history_known {sid : String} {st : St} {h : List Message}
    (hh : alookup sid st.store = some h) (now : Nat) :
    get_history now sid st = (h, st) := by
  simp [get_history, hh]

theorem get_history_fresh {sid : String} {st : St}
    (hh : alookup sid st.store = none) (now : Nat) :
    get_history now sid st =
      ([], { store := ainsert sid [] st.store
             metadata := ainsert sid (defaultMetadata now) st.metadata }) := by
  simp [get_history, hh]

theorem get_history_lookup_store (now : Nat) (sid : String) (st : St) :
    alookup sid (get_history now sid st).2.store = some (get_history now sid st).1 := by
  cases hh : alookup sid st.store with
  | some h => simp [get_history, hh]
  | none => simp [get_history, hh, alookup_ainsert_self]

/-! ## Chat-turn equations -/

theorem updateMeta_default (now now0 : Nat) (input : List Char) :
    updateMetaAfterTurn now input (defaultMetadata now0) =
      { created_at := now0, updated_at := now, title := truncTitle input,
        message_count := 2, is_starred := false, is_archived := false,
        tags := [] } := by
  simp [updateMetaAfterTurn, defaultMetadata]

/-- A configured turn on a known session whose model call fails changes
nothing: the pre-state is returned with the typed error. -/
theorem chat_err_known {gen : ModelFn} {sid : String} {st : St}
    {h : List Message} {input e : List Char}
    (hs : alookup sid st.store = some h) (hg : gen h input = Except.error e)
    (now pt : Nat) (cfg : Option GenConfig) :
    chat (some gen) now pt sid input cfg st =
      (Except.error (ChatErr.modelInvocation ("Chat processing failed: ".data ++ e)),
        st) := by
  simp only [chat, get_history_known hs now, hg]

/-- A configured turn on an unknown session whose model call fails leaves the
lazily created empty session behind and returns the typed error. -/
theorem chat_err_fresh {gen : ModelFn} {sid : String} {st : St}
    {input e : List Char}
    (hs : alookup sid st.store = none) (hg : gen [] input = Except.error e)
    (now pt : Nat) (cfg : Option GenConfig) :
    chat (some gen) now pt sid input cfg st =
      (Except.error (ChatErr.modelInvocation ("Chat processing failed: ".data ++ e)),
        { store := ainsert sid [] st.store
          metadata := ainsert sid (defaultMetadata now) st.metadata }) := by
  simp only [chat, get_history_fresh hs now, hg]

/-- A successful configured turn on a known session with metadata present:
the two messages are appended and the metadata updated. -/
theorem chat_ok_known {gen : ModelFn} {sid : String} {st : St}
    {h : List Message} {m : Metadata} {input reply : List Char}
    (hs : alookup sid st.store = some h)
    (hm : alookup sid st.metadata = some m)
    (hg : gen h input = Except.ok reply)
    (now pt : Nat) (cfg : Option GenConfig) :
    chat (some gen) now pt sid input cfg st =
      (Except.ok
        { message := reply, model := "gemini-1.5-flash".data,
          tokens := countWords reply, temperature := temperatureOf cfg,
          processing_time := pt },
        { store := ainsert sid
            (h ++ [⟨Sender.user, input⟩, ⟨Sender.assistant, reply⟩]) st.store
          metadata := ainsert sid (updateMetaAfterTurn now input m) st.metadata }) := by
  simp only [chat, get_history_known hs now, hg, hm]

/-- A successful configured turn on a known session whose metadata entry is
missing (unreachable in practice): messages are appended, metadata untouched. -/
theorem chat_ok_known_nometa {gen : ModelFn} {sid : String} {st : St}
    {h : List Message} {input reply : List Char}
    (hs : alookup sid st.store = some h)
    (hm : alookup sid st.metadata = none)
    (hg : gen h input = Except.ok reply)
    (now pt : Nat) (cfg : Option GenConfig) :
    chat (some gen) now pt sid input cfg st =
      (Except.ok
        { message := reply, model := "gemini-1.5-flash".data,
          tokens := countWords reply, temperature := temperatureOf cfg,
          processing_time := pt },
        { store := ainsert sid
            (h ++ [⟨Sender.user, input⟩, ⟨Sender.assistant, reply⟩]) st.store
          metadata := st.metadata }) := by
  simp only [chat, get_history_known hs now, hg, hm]

/-- A successful configured turn on a fresh session: the session is created,
the two messages stored, and the default metadata updated (count 2, title
derived from the input). -/
theorem chat_ok_fresh {gen : ModelFn} {sid : String} {st : St}
    {input reply : List Char}
    (hs : alookup sid st.store = none)
    (hg : gen [] input = Except.ok reply)
    (now pt : Nat) (cfg : Option GenConfig) :
    chat (some gen) now pt sid input cfg st =
      (Except.ok
        { message := reply, model := "gemini-1.5-flash".data,
          tokens := countWords reply, temperature := temperatureOf cfg,
          processing_time := pt },
        { store := ainsert sid
            [⟨Sender.user, input⟩, ⟨Sender.assistant, reply⟩]
            (ainsert sid [] st.store)
          metadata := ainsert sid
            { created_at := now, updated_at := now, title := truncTitle input,
              message_count := 2, is_starred := false, is_archived := false,
              tags := [] }
            (ainsert sid (defaultMetadata now) st.metadata) }) := by
  simp only [chat, get_history_fresh hs now, hg,
    alookup_ainsert_self, List.nil_append, updateMeta_default]

/-! ## Store invariants -/

/-- Every session's `message_count` equals its history length. -/
def InvCount (st : St) : Prop :=
  ∀ sid h m, alookup sid st.store = some h → alookup sid st.metadata = some m →
    m.message_count = h.length

/-- A session id is known to `store` iff it is known to `session_metadata`. -/
def InvSync (st : St) : Prop :=
  ∀ sid, (alookup sid st.store).isSome ↔ (alookup sid st.metadata).isSome

theorem invCount_init : InvCount initSt := by
  intro sid h m hh
  simp [initSt, alookup] at hh

theorem invSync_init : InvSync initSt := by
  intro sid
  simp [initSt, alookup]

theorem invCount_get_history {st : St} (hI : InvCount st) (now : Nat) (sid : String) :
    InvCount (get_history now sid st).2 := by
  cases hh : alookup sid st.store with
  | some h => rw [get_history_known hh now]; exact hI
  | none =>
      rw [get_history_fresh hh now]
      intro k kh km hkh hkm
      by_cases hk : k = sid
      · subst hk
        rw [alookup_ainsert_self] at hkh hkm
        cases hkh; cases hkm
        simp [defaultMetadata]
      · rw [alookup_ainsert_ne (fun e => hk e.symm)] at hkh hkm
        exact hI k kh km hkh hkm

theorem invSync_get_history {st : St} (hI : InvSync st) (now : Nat) (sid : String) :
    InvSync (get_history now sid st).2 := by
  cases hh : alookup sid st.store with
  | some h => rw [get_history_known hh now]; exact hI
  | none =>
      rw [get_history_fresh hh now]
      intro k
      by_cases hk : k = sid
      · subst hk; simp [alookup_ainsert_self]
      · simp only [alookup_ainsert_ne (fun e => hk e.symm)]
        exact hI k

theorem invCount_chat {st : St} (hI : InvCount st) (mf : Option ModelFn)
    (now pt : Nat) (sid : String) (input : List Char) (cfg : Option GenConfig) :
    InvCount (chat mf now pt sid input cfg st).2 := by
  cases mf with
  | none => exact hI
  | some gen =>
      cases hh : alookup sid st.store with
      | some h =>
          cases hg : gen h input with
          | error e => rw [chat_err_known hh hg now pt cfg]; exact hI
          | ok reply =>
              cases hm : alookup sid st.metadata with
              | some m =>
                  rw [chat_ok_known hh hm hg now pt cfg]
                  intro k kh km hkh hkm
                  by_cases hk : k = sid
                  · subst hk
                    rw [alookup_ainsert_self] at hkh hkm
                    cases hkh; cases hkm
                    have := hI k h m hh hm
                    simp only [updateMetaAfterTurn]
                    split
                    · simp [this, List.length_append]
                    · simp [this, List.length_append]
                  · rw [alookup_ainsert_ne (fun e => hk e.symm)] at hkh hkm
                    exact hI k kh km hkh hkm
              | none =>
                  rw [chat_ok_known_nometa hh hm hg now pt cfg]
                  intro k kh km hkh hkm
                  by_cases hk : k = sid
                  · subst hk
                    rw [hm] at hkm
                    cases hkm
                  · rw [alookup_ainsert_ne (fun e => hk e.symm)] at hkh
                    exact hI k kh km hkh hkm
      | none =>
          cases hg : gen [] input with
          | error e =>
              rw [chat_err_fresh hh hg now pt cfg]
              intro k kh km hkh hkm
              by_cases hk : k = sid
              · subst hk
                rw [alookup_ainsert_self] at hkh hkm
                cases hkh; cases hkm
                simp [defaultMetadata]
              · rw [alookup_ainsert_ne (fun e => hk e.symm)] at hkh hkm
                exact hI k kh km hkh hkm
          | ok reply =>
              rw [chat_ok_fresh hh hg now pt cfg]
              intro k kh km hkh hkm
              by_cases hk : k = sid
              · subst hk
                rw [alookup_ainsert_self] at hkh hkm
                cases hkh; cases hkm
                simp
              · rw [alookup_ainsert_ne (fun e => hk e.symm),
                  alookup_ainsert_ne (fun e => hk e.symm)] at hkh hkm
                exact hI k kh km hkh hkm

theorem invSync_chat {st : St} (hI : InvSync st) (mf : Option ModelFn)
    (now pt : Nat) (sid : String) (input : List Char) (cfg : Option GenConfig) :
    InvSync (chat mf now pt sid input cfg st).2 := by
  cases mf with
  | none => exact hI
  | some gen =>
      cases hh : alookup sid st.store with
      | some h =>
          cases hg : gen h input with
          | error e => rw [chat_err_known hh hg now pt cfg]; exact hI
          | ok reply =>
              cases hm : alookup sid st.metadata with
              | some m =>
                  rw [chat_ok_known hh hm hg now pt cfg]
                  intro k
                  by_cases hk : k = sid
                  · subst hk; simp [alookup_ainsert_self]
                  · simp only [alookup_ainsert_ne (fun e => hk e.symm)]
                    exact hI k
              | none =>
                  exfalso
                  have := hI sid
                  rw [hh, hm] at this
                  simp at this
      | none =>
          cases hg : gen [] input with
          | error e =>
              rw [chat_err_fresh hh hg now pt cfg]
              intro k
              by_cases hk : k = sid
              · subst hk; simp [alookup_ainsert_self]
              · simp only [alookup_ainsert_ne (fun e => hk e.symm)]
                exact hI k
          | ok reply =>
              rw [chat_ok_fresh hh hg now pt cfg]
              intro k
              by_cases hk : k = sid
              · subst hk; simp [alookup_ainsert_self]
              · simp only [alookup_ainsert_ne (fun e => hk e.symm)]
                exact hI k

theorem invCount_reset {st : St} (hI : InvCount st) (sid : String) :
    InvCount (reset_session sid st) := by
  intro k kh km hkh hkm
  by_cases hk : k = sid
  · subst hk
    simp [reset_session, alookup_aerase_self] at hkh
  · simp only [reset_session, alookup_aerase_ne (fun e => hk e.symm)] at hkh hkm
    exact hI k kh km hkh hkm

theorem invSync_reset {st : St} (hI : InvSync st) (sid : String) :
    InvSync (reset_session sid st) := by
  intro k
  by_cases hk : k = sid
  · subst hk; simp [reset_session, alookup_aerase_self]
  · simp only [reset_session, alookup_aerase_ne (fun e => hk e.symm)]
    exact hI k

theorem invCount_delete {st : St} (hI : InvCount st) (sid : String) :
    InvCount (delete_session sid st).2 :=
  invCount_reset hI sid

theorem invSync_delete {st : St} (hI : InvSync st) (sid : String) :
    InvSync (delete_session sid st).2 :=
  invSync_reset hI sid

theorem invCount_rename {st : St} (hI : InvCount st) (now : Nat) (sid : String)
    (title : List Char) : InvCount (update_session_title now sid title st).2 := by
  cases hm : alookup sid st.metadata with
  | none => simp only [update_session_title, hm]; exact hI
  | some m =>
      simp only [update_session_title, hm]
      intro k kh km hkh hkm
      by_cases hk : k = sid
      · subst hk
        rw [alookup_ainsert_self] at hkm
        cases hkm
        exact hI k kh m hkh hm
      · rw [alookup_ainsert_ne (fun e => hk e.symm)] at hkm
        exact hI k kh km hkh hkm

theorem invSync_rename {st : St} (hI : InvSync st) (now : Nat) (sid : String)
    (title : List Char) : InvSync (update_session_title now sid title st).2 := by
  cases hm : alookup sid st.metadata with
  | none => simp only [update_session_title, hm]; exact hI
  | some m =>
      simp only [update_session_title, hm]
      intro k
      by_cases hk : k = sid
      · subst hk
        simp only [alookup_ainsert_self, Option.isSome_some, iff_true]
        exact (hI k).mpr (by simp [hm])
      · simp only [alookup_ainsert_ne (fun e => hk e.symm)]
        exact hI k

theorem invCount_reachable {st : St} (hR : Reachable st) : InvCount st := by
  induction hR with
  | init => exact invCount_init
  | hist now sid _ ih => exact invCount_get_history ih now sid
  | turn mf now pt sid input cfg _ ih => exact invCount_chat ih mf now pt sid input cfg
  | reset sid _ ih => exact invCount_reset ih sid
  | delete sid _ ih => exact invCount_delete ih sid
  | rename now sid title _ ih => exact invCount_rename ih now sid title

theorem invSync_reachable {st : St} (hR : Reachable st) : InvSync st := by
  induction hR with
  | init => exact invSync_init
  | hist now sid _ ih => exact invSync_get_history ih now sid
  | turn mf now pt sid input cfg _ ih => exact invSync_chat ih mf now pt sid input cfg
  | reset sid _ ih => exact invSync_reset ih sid
  | delete sid _ ih => exact invSync_delete ih sid
  | rename now sid title _ ih => exact invSync_rename ih now sid title

/-! ## Iterated successful turns -/

/-- A model collaborator that always succeeds, replying via `gen`. -/
def alwaysOk (gen : List Message → List Char → List Char) : ModelFn :=
  fun h i => Except.ok (gen h i)

/-- `N` consecutive chat turns on the same session with an always-succeeding
model, one per element of `inputs`, and no other operation in between. -/
def runTurns (gen : List Message → List Char → List Char) (now : Nat)
    (sid : String) (inputs : List (List Char)) (st : St) : St :=
  inputs.foldl (fun s inp => (chat (some (alwaysOk gen)) now 0 sid inp none s).2) st

theorem updateMeta_count (now : Nat) (input : List Char) (m : Metadata) :
    (updateMetaAfterTurn now input m).message_count = m.message_count + 2 := by
  simp only [updateMetaAfterTurn]
  split <;> rfl

theorem updateMeta_title_of_ne (now : Nat) (input : List Char) (m : Metadata)
    (h : m.title ≠ "New Chat".data) :
    (updateMetaAfterTurn now input m).title = m.title := by
  simp [updateMetaAfterTurn, h]

theorem runTurns_counts (gen : List Message → List Char → List Char)
    (now : Nat) (sid : String) :
    ∀ (inputs : List (List Char)) (st : St) (h : List Message) (m : Metadata),
      alookup sid st.store = some h → alookup sid st.metadata = some m →
      ∃ h' m', alookup sid (runTurns gen now sid inputs st).store = some h' ∧
        alookup sid (runTurns gen now sid inputs st).metadata = some m' ∧
        h'.length = h.length + 2 * inputs.length ∧
        m'.message_count = m.message_count + 2 * inputs.length := by
  intro inputs
  induction inputs with
  | nil =>
      intro st h m hs hm
      exact ⟨h, m, hs, hm, by simp [runTurns], by simp [runTurns]⟩
  | cons inp rest ih =>
      intro st h m hs hm
      have hchat := @chat_ok_known (alwaysOk gen) sid st h m inp (gen h inp)
        hs hm rfl now 0 none
      have hrun : runTurns gen now sid (inp :: rest) st =
          runTurns gen now sid rest (chat (some (alwaysOk gen)) now 0 sid inp none st).2 := by
        simp [runTurns]
      rw [hrun, hchat]
      obtain ⟨h', m', h1, h2, h3, h4⟩ := ih
        { store := ainsert sid
            (h ++ [⟨Sender.user, inp⟩, ⟨Sender.assistant, gen h inp⟩]) st.store
          metadata := ainsert sid (updateMetaAfterTurn now inp m) st.metadata }
        (h ++ [⟨Sender.user, inp⟩, ⟨Sender.assistant, gen h inp⟩])
        (updateMetaAfterTurn now inp m)
        (alookup_ainsert_self sid _ st.store)
        (alookup_ainsert_self sid _ st.metadata)
      refine ⟨h', m', h1, h2, ?_, ?_⟩
      · simp only [List.length_append, List.length_cons, List.length_nil] at h3
        simp [h3, List.length_cons]
        ring
      · rw [updateMeta_count] at h4
        simp [h4, List.length_cons]
        ring

/-! ## `list_sessions` membership -/

theorem mem_list_sessions (st : St) (sid : String) :
    sid ∈ (list_sessions st).map SessionSummary.id ↔
      (alookup sid st.metadata).isSome := by
  rw [alookup_isSome_iff_mem]
  unfold list_sessions
  rw [((perm_sortDescBy (fun s => s.updated_at) _).map SessionSummary.id).mem_iff,
    List.map_map]
  constructor
  · intro hmem
    rcases List.mem_map.mp hmem with ⟨kv, hkv, hid⟩
    exact List.mem_map.mpr ⟨kv, hkv, hid⟩
  · intro hmem
    rcases List.mem_map.mp hmem with ⟨kv, hkv, hid⟩
    exact List.mem_map.mpr ⟨kv, hkv, hid⟩

/-! ## Search lemmas -/

theorem mem_searchSession_sound (q : List Char) (sid : String) (title : List Char) :
    ∀ (hist : List Message) (i : Nat) (r : SearchResult),
      r ∈ searchSession q sid title i hist →
      r.session_id = sid ∧
      isSubstr (lowerStr q) (lowerStr r.content) = true ∧
      r.relevance_score = pyCount (lowerStr q) (lowerStr r.content) := by
  intro hist
  induction hist with
  | nil => intro i r hr; simp [searchSession] at hr
  | cons m rest ih =>
      intro i r hr
      by_cases hmatch : isSubstr (lowerStr q) (lowerStr m.content) = true
      · rw [searchSession, if_pos hmatch] at hr
        rcases List.mem_cons.mp hr with rfl | hr
        · exact ⟨rfl, hmatch, rfl⟩
        · exact ih (i + 1) r hr
      · rw [searchSession, if_neg hmatch] at hr
        exact ih (i + 1) r hr

theorem mem_searchSession_complete (q : List Char) (sid : String) (title : List Char) :
    ∀ (hist : List Message) (i : Nat) (msg : Message), msg ∈ hist →
      isSubstr (lowerStr q) (lowerStr msg.content) = true →
      ∃ r ∈ searchSession q sid title i hist,
        r.session_id = sid ∧ r.sender = msg.sender ∧ r.content = msg.content ∧
        r.relevance_score = pyCount (lowerStr q) (lowerStr msg.content) := by
  intro hist
  induction hist with
  | nil => intro i msg hmem; simp at hmem
  | cons m rest ih =>
      intro i msg hmem hmatch
      rcases List.mem_cons.mp hmem with rfl | hmem
      · refine ⟨⟨sid, i, title, msg.sender, msg.content,
          pyCount (lowerStr q) (lowerStr msg.content)⟩, ?_, rfl, rfl, rfl, rfl⟩
        rw [searchSession, if_pos hmatch]
        exact List.mem_cons_self _ _
      · obtain ⟨r, hr, hrp⟩ := ih (i + 1) msg hmem hmatch
        refine ⟨r, ?_, hrp⟩
        by_cases hm2 : isSubstr (lowerStr q) (lowerStr m.content) = true
        · rw [searchSession, if_pos hm2]; exact List.mem_cons_of_mem _ hr
        · rw [searchSession, if_neg hm2]; exact hr

theorem mem_searchGather (q : List Char) (osid : Option String) (st : St)
    (r : SearchResult) :
    r ∈ searchGather q osid st ↔
      ∃ sid ∈ searchedIds osid st, r ∈ gatherOne q st sid := by
  unfold searchGather
  induction searchedIds osid st with
  | nil => simp
  | cons s rest ih => simp [List.foldr_cons, List.mem_append, ih]

theorem mem_searchGather_sound (q : List Char) (osid : Option String) (st : St)
    (r : SearchResult) (hr : r ∈ searchGather q osid st) :
    isSubstr (lowerStr q) (lowerStr r.content) = true ∧
    r.relevance_score = pyCount (lowerStr q) (lowerStr r.content) := by
  obtain ⟨sid, _, hone⟩ := (mem_searchGather q osid st r).mp hr
  unfold gatherOne at hone
  cases hh : alookup sid st.store with
  | some hist =>
      rw [hh] at hone
      exact (mem_searchSession_sound q sid (titleOf sid st) hist 0 r hone).2
  | none => rw [hh] at hone; simp at hone

/-! ## Export lemmas -/

theorem containsInOrder_append_left (ps : List (List Char)) (pre s : List Char)
    (h : containsInOrder s ps) : containsInOrder (pre ++ s) ps := by
  cases ps with
  | nil => trivial
  | cons p rest =>
      obtain ⟨pre0, tail, heq, htail⟩ := h
      exact ⟨pre ++ pre0, tail, by rw [heq]; simp [List.append_assoc], htail⟩

theorem renderMessages_contains (views : List MessageView) :
    containsInOrder (renderMessages views) (views.map MessageView.content) := by
  induction views with
  | nil => trivial
  | cons v rest ih =>
      refine ⟨senderLabel v.sender ++ ": ".data,
        "\n\n".data ++ renderMessages rest, ?_, ?_⟩
      · simp [renderMessages, List.append_assoc]
      · exact containsInOrder_append_left _ _ _ ih

theorem messageViews_map_content (sid : String) :
    ∀ (hist : List Message) (i : Nat),
      (messageViews sid i hist).map MessageView.content = hist.map Message.content := by
  intro hist
  induction hist with
  | nil => intro i; simp [messageViews]
  | cons m rest ih => intro i; simp [messageViews, ih (i + 1)]

theorem renderTxt_contains (sid : String) (m : Metadata) (views : List MessageView) :
    containsInOrder (renderTxt sid (some m) views)
      (m.title :: views.map MessageView.content) := by
  refine ⟨"Afridi.ai Conversation Export\n".data ++ "Session ID: ".data ++ sid.data
      ++ "\n".data ++ "Title: ".data,
    "\n".data ++ "Created: ".data ++ (toString m.created_at).data ++ "\n\n".data
      ++ renderMessages views, ?_, ?_⟩
  · simp [renderTxt, List.append_assoc]
  · exact containsInOrder_append_left _ _ _ (renderMessages_contains views)

/-! ## Concrete fixtures -/

/-- A model collaborator that always fails. -/
def genFailFixture : ModelFn := fun _ _ => Except.error "boom".data

/-- A model collaborator that always replies `"ok"`. -/
def genOkFixture : ModelFn := fun _ _ => Except.ok "ok".data

/-- Metadata of an established session whose title was already set. -/
def fixtureMeta : Metadata :=
  { created_at := 1, updated_at := 2, title := "My Chat".data, message_count := 2,
    is_starred := false, is_archived := false, tags := [] }

/-- History of the established fixture session. -/
def fixtureHist : List Message :=
  [⟨Sender.user, "hi".data⟩, ⟨Sender.assistant, "yo".data⟩]

/-- A state holding one established session `"s"`. -/
def fixtureSt : St :=
  { store := [("s", fixtureHist)], metadata := [("s", fixtureMeta)] }

/-- The spec's search example: one session with messages
`["foo bar foo", "baz"]`. -/
def searchExampleSt : St :=
  { store := [("s", [⟨Sender.user, "foo bar foo".data⟩, ⟨Sender.user, "baz".data⟩])]
    metadata := [("s", defaultMetadata 0)] }

/-- Export fixture: a known session with two messages. -/
def exportExampleSt : St :=
  { store := [("s", [⟨Sender.user, "hi".data⟩, ⟨Sender.assistant, "hello".data⟩])]
    metadata := [("s", defaultMetadata 0)] }

/-- Discriminates the transcript branch of an export result. -/
def isTxtExport : ExportResult → Bool
  | ExportResult.txt _ => true
  | _ => false

/-- A 60-character input for the title-truncation example. -/
def input60 : List Char :=
  "012345678901234567890123456789012345678901234567890123456789".data

/-! ## Title truncation -/

theorem truncTitle_of_le {input : List Char} (h : input.length ≤ 50) :
    truncTitle input = input := by
  simp [truncTitle, Nat.not_lt.mpr h, List.take_of_length_le h]

theorem truncTitle_of_gt {input : List Char} (h : 50 < input.length) :
    truncTitle input = input.take 50 ++ "...".data := by
  simp [truncTitle, h]

/-! ## Claim theorems -/

/-- C1 (counterexample): the claim is false as stated — when the model
collaborator fails during a configured turn on a *previously-unknown* session
id, the turn fails with the typed error but the session has been lazily
created: the stores are not exactly as before the call. -/
theorem C1_counterexample :
    (chat (some genFailFixture) 0 0 "s" "hi".data none initSt).1 =
      Except.error (ChatErr.modelInvocation "Chat processing failed: boom".data) ∧
    alookup "s" initSt.store = none ∧
    (chat (some genFailFixture) 0 0 "s" "hi".data none initSt).2 ≠ initSt ∧
    alookup "s" (chat (some genFailFixture) 0 0 "s" "hi".data none initSt).2.store
      = some [] ∧
    alookup "s" (chat (some genFailFixture) 0 0 "s" "hi".data none initSt).2.metadata
      = some (defaultMetadata 0) := by
  refine ⟨rfl, rfl, ?_, rfl, rfl⟩
  decide

/-- C1 (amended): if the model collaborator fails during a configured turn,
the turn fails with the typed `ModelInvocationError`; for a session id already
present in the stores, both stores are exactly as before the call (no history
or metadata mutation); a previously-unknown session id, however, is lazily
created with empty history and default metadata as a side effect of reading
the history before the model call. -/
theorem C1_model_error_atomic :
    (∀ (gen : ModelFn) (now pt : Nat) (sid : String) (input e : List Char)
      (cfg : Option GenConfig) (st : St) (h : List Message),
      alookup sid st.store = some h → gen h input = Except.error e →
      chat (some gen) now pt sid input cfg st =
        (Except.error (ChatErr.modelInvocation ("Chat processing failed: ".data ++ e)),
          st)) ∧
    (∀ (gen : ModelFn) (now pt : Nat) (sid : String) (input e : List Char)
      (cfg : Option GenConfig) (st : St),
      alookup sid st.store = none → gen [] input = Except.error e →
      chat (some gen) now pt sid input cfg st =
        (Except.error (ChatErr.modelInvocation ("Chat processing failed: ".data ++ e)),
          { store := ainsert sid [] st.store
            metadata := ainsert sid (defaultMetadata now) st.metadata })) :=
  ⟨fun _ now pt _ _ _ cfg _ _ hs hg => chat_err_known hs hg now pt cfg,
   fun _ now pt _ _ _ cfg _ hs hg => chat_err_fresh hs hg now pt cfg⟩

/-- C1 (witness): the amended theorem applied to an established session and an
always-failing model. -/
theorem C1_witness :
    chat (some genFailFixture) 3 0 "s" "hi".data none fixtureSt =
      (Except.error (ChatErr.modelInvocation ("Chat processing failed: ".data ++ "boom".data)),
        fixtureSt) :=
  C1_model_error_atomic.1 genFailFixture 3 0 "s" "hi".data "boom".data none
    fixtureSt fixtureHist (by decide) rfl

/-- C2: on every reachable state, each session's `message_count` equals the
length of its history; and after `N` successful chat turns on a previously
unseen session (and no other mutations), both the `message_count` and the
history length equal `2N`. -/
theorem C2_message_count_matches_history :
    (∀ st, Reachable st → InvCount st) ∧
    (∀ (gen : List Message → List Char → List Char) (now : Nat) (sid : String)
      (inputs : List (List Char)) (st : St),
      alookup sid st.store = none → inputs ≠ [] →
      ∃ h m, alookup sid (runTurns gen now sid inputs st).store = some h ∧
        alookup sid (runTurns gen now sid inputs st).metadata = some m ∧
        h.length = 2 * inputs.length ∧
        m.message_count = 2 * inputs.length) := by
  constructor
  · exact fun st hR => invCount_reachable hR
  · intro gen now sid inputs st hs hne
    cases inputs with
    | nil => exact absurd rfl hne
    | cons inp rest =>
        have hchat := @chat_ok_fresh (alwaysOk gen) sid st inp (gen [] inp)
          hs rfl now 0 none
        have hrun : runTurns gen now sid (inp :: rest) st =
            runTurns gen now sid rest
              (chat (some (alwaysOk gen)) now 0 sid inp none st).2 := by
          simp [runTurns]
        rw [hrun, hchat]
        obtain ⟨h', m', h1, h2, h3, h4⟩ := runTurns_counts gen now sid rest
          { store := ainsert sid
              [⟨Sender.user, inp⟩, ⟨Sender.assistant, gen [] inp⟩]
              (ainsert sid [] st.store)
            metadata := ainsert sid
              { created_at := now, updated_at := now, title := truncTitle inp,
                message_count := 2, is_starred := false, is_archived := false,
                tags := [] }
              (ainsert sid (defaultMetadata now) st.metadata) }
          [⟨Sender.user, inp⟩, ⟨Sender.assistant, gen [] inp⟩]
          { created_at := now, updated_at := now, title := truncTitle inp,
            message_count := 2, is_starred := false, is_archived := false,
            tags := [] }
          (alookup_ainsert_self sid _ _) (alookup_ainsert_self sid _ _)
        refine ⟨h', m', h1, h2, ?_, ?_⟩
        · simp only [List.length_cons, List.length_nil] at h3
          simp only [List.length_cons]
          omega
        · simp only [List.length_cons] at h4
          simp only [List.length_cons]
          omega

/-- C2 (witness): one successful turn on a fresh session yields count 2 and
history length 2. -/
theorem C2_witness :
    ∃ h m,
      alookup "s" (runTurns (fun _ _ => "ok".data) 0 "s" ["hi".data] initSt).store
        = some h ∧
      alookup "s" (runTurns (fun _ _ => "ok".data) 0 "s" ["hi".data] initSt).metadata
        = some m ∧
      h.length = 2 * ["hi".data].length ∧
      m.message_count = 2 * ["hi".data].length :=
  C2_message_count_matches_history.2 (fun _ _ => "ok".data) 0 "s" ["hi".data]
    initSt rfl (by simp)

/-- C3: on the first successful chat turn of a fresh session (title still the
default), the title becomes the input truncated at 50 characters with the
`"..."` marker appended exactly when the input exceeds 50 characters; an input
of at most 50 characters becomes the title unchanged. -/
theorem C3_title_autoderive :
    ∀ (gen : ModelFn) (now pt : Nat) (sid : String) (input reply : List Char)
      (cfg : Option GenConfig) (st : St),
      alookup sid st.store = none → gen [] input = Except.ok reply →
      ∃ m, alookup sid (chat (some gen) now pt sid input cfg st).2.metadata = some m ∧
        m.title = truncTitle input ∧
        (input.length ≤ 50 → m.title = input) ∧
        (50 < input.length → m.title = input.take 50 ++ "...".data) := by
  intro gen now pt sid input reply cfg st hs hg
  rw [chat_ok_fresh hs hg now pt cfg]
  refine ⟨_, alookup_ainsert_self sid _ _, rfl, ?_, ?_⟩
  · intro hle; exact truncTitle_of_le hle
  · intro hgt; exact truncTitle_of_gt hgt

/-- C3 (witness): a 60-character first input yields its first 50 characters
followed by the ellipsis marker. -/
theorem C3_witness :
    ∃ m, alookup "s" (chat (some genOkFixture) 0 0 "s" input60 none initSt).2.metadata
        = some m ∧
      m.title = truncTitle input60 ∧
      (input60.length ≤ 50 → m.title = input60) ∧
      (50 < input60.length → m.title = input60.take 50 ++ "...".data) :=
  C3_title_autoderive genOkFixture 0 0 "s" input60 "ok".data none initSt rfl rfl

/-- C6: when the model collaborator is unconfigured, a chat turn does not
fail: it returns the fallback/echo reply, which embeds the user's input,
together with generation metadata, and leaves the state untouched. -/
theorem C6_fallback_on_unconfigured :
    ∀ (now pt : Nat) (sid : String) (input : List Char) (cfg : Option GenConfig)
      (st : St),
      chat none now pt sid input cfg st =
        (Except.ok
          { message := devPrefix ++ input ++ devSuffix,
            model := "development-mode".data, tokens := 0,
            temperature := 7 / 10, processing_time := 0 }, st) ∧
      ∃ pre post, devPrefix ++ input ++ devSuffix = pre ++ input ++ post :=
  fun _ _ _ _ _ _ => ⟨rfl, devPrefix, devSuffix, rfl⟩

/-- C7: on every reachable state, a session id is known to the history store
iff it is known to the metadata store. -/
theorem C7_store_metadata_sync :
    ∀ st, Reachable st → ∀ sid,
      (alookup sid st.store).isSome ↔ (alookup sid st.metadata).isSome :=
  fun _ hR => invSync_reachable hR

/-- C7 (witness): the invariant at the state reached by one history fetch. -/
theorem C7_witness :
    (alookup "s" (get_history 0 "s" initSt).2.store).isSome ↔
      (alookup "s" (get_history 0 "s" initSt).2.metadata).isSome :=
  C7_store_metadata_sync _ (Reachable.hist 0 "s" Reachable.init) "s"

/-- C9: fetching the history of a never-seen session id returns an empty
sequence, creates the session with default metadata as a side effect, and the
id then appears in `list_sessions`. -/
theorem C9_lazy_creation :
    ∀ (now : Nat) (sid : String) (st : St), alookup sid st.store = none →
      (get_history now sid st).1 = [] ∧
      alookup sid (get_history now sid st).2.store = some [] ∧
      alookup sid (get_history now sid st).2.metadata = some (defaultMetadata now) ∧
      sid ∈ (list_sessions (get_history now sid st).2).map SessionSummary.id := by
  intro now sid st hs
  rw [get_history_fresh hs now]
  refine ⟨rfl, alookup_ainsert_self sid _ _, alookup_ainsert_self sid _ _, ?_⟩
  exact (mem_list_sessions _ sid).mpr (by simp [alookup_ainsert_self])

/-- C9 (witness): the theorem at the empty initial state. -/
theorem C9_witness :
    (get_history 0 "s" initSt).1 = [] ∧
    alookup "s" (get_history 0 "s" initSt).2.store = some [] ∧
    alookup "s" (get_history 0 "s" initSt).2.metadata = some (defaultMetadata 0) ∧
    "s" ∈ (list_sessions (get_history 0 "s" initSt).2).map SessionSummary.id :=
  C9_lazy_creation 0 "s" initSt rfl

/-- C10: an unconfigured (development-mode) chat turn touches neither store:
the state after the call is exactly the state before it. -/
theorem C10_dev_mode_frame :
    ∀ (now pt : Nat) (sid : String) (input : List Char) (cfg : Option GenConfig)
      (st : St),
      (chat none now pt sid input cfg st).2 = st ∧
      (chat none now pt sid input cfg st).2.store = st.store ∧
      (chat none now pt sid input cfg st).2.metadata = st.metadata :=
  fun _ _ _ _ _ _ => ⟨rfl, rfl, rfl⟩

/-- C4: search returns at most 20 results, sorted by relevance score
descending; every returned match contains the query case-insensitively and
carries as score the occurrence count of the query in its content; every
matching message of a searched session is present among the gathered matches;
and the spec's example — searching `"foo"` over `["foo bar foo", "baz"]` —
returns exactly one match with score 2. -/
theorem C4_search_contract :
    ∀ (q : List Char) (osid : Option String) (st : St),
      (search_messages q osid st).length ≤ 20 ∧
      (search_messages q osid st).Pairwise
        (fun a b => b.relevance_score ≤ a.relevance_score) ∧
      (∀ r ∈ search_messages q osid st,
        isSubstr (lowerStr q) (lowerStr r.content) = true ∧
        r.relevance_score = pyCount (lowerStr q) (lowerStr r.content)) ∧
      (∀ (sid : String) (hist : List Message) (msg : Message),
        sid ∈ searchedIds osid st → alookup sid st.store = some hist →
        msg ∈ hist → isSubstr (lowerStr q) (lowerStr msg.content) = true →
        ∃ r ∈ searchGather q osid st, r.session_id = sid ∧ r.sender = msg.sender ∧
          r.content = msg.content ∧
          r.relevance_score = pyCount (lowerStr q) (lowerStr msg.content)) ∧
      search_messages "foo".data (some "s") searchExampleSt =
        [{ session_id := "s", index := 0, session_title := "New Chat".data,
           sender := Sender.user, content := "foo bar foo".data,
           relevance_score := 2 }] := by
  intro q osid st
  refine ⟨?_, ?_, ?_, ?_, ?_⟩
  · rw [search_messages, List.length_take]
    exact Nat.min_le_left _ _
  · exact (pairwise_sortDescBy (fun r => r.relevance_score)
      (searchGather q osid st)).sublist (List.take_sublist _ _)
  · intro r hr
    have hr2 : r ∈ sortDescBy (fun r => r.relevance_score) (searchGather q osid st) :=
      List.take_subset _ _ hr
    have hr3 : r ∈ searchGather q osid st :=
      (mem_sortDescBy (fun r => r.relevance_score) r _).mp hr2
    exact mem_searchGather_sound q osid st r hr3
  · intro sid hist msg hsid hh hmem hmatch
    obtain ⟨r, hr, hid, hsd, hct, hsc⟩ :=
      mem_searchSession_complete q sid (titleOf sid st) hist 0 msg hmem hmatch
    refine ⟨r, ?_, hid, hsd, hct, hsc⟩
    refine (mem_searchGather q osid st r).mpr ⟨sid, hsid, ?_⟩
    unfold gatherOne
    rw [hh]
    exact hr
  · decide

/-- C4 (witness): the completeness clause applied to the example state. -/
theorem C4_witness :
    ∃ r ∈ searchGather "foo".data (some "s") searchExampleSt,
      r.session_id = "s" ∧ r.sender = Sender.user ∧
      r.content = "foo bar foo".data ∧
      r.relevance_score = pyCount (lowerStr "foo".data) (lowerStr "foo bar foo".data) :=
  (C4_search_contract "foo".data (some "s") searchExampleSt).2.2.2.1 "s"
    [⟨Sender.user, "foo bar foo".data⟩, ⟨Sender.user, "baz".data⟩]
    ⟨Sender.user, "foo bar foo".data⟩
    (by decide) (by decide) (by decide) (by decide)

/-- C5 (counterexample): the claim is false as stated — on a known session,
`export_session` with format `"text"` does not render a transcript: the code
only takes the text branch for the string `"txt"`, so `"text"` falls through
to the structured payload. -/
theorem C5_counterexample :
    (alookup "s" exportExampleSt.store).isSome = true ∧
    isTxtExport (export_session "s" "text" exportExampleSt) = false ∧
    export_session "s" "text" exportExampleSt =
      export_session "s" "json" exportExampleSt := by
  refine ⟨rfl, rfl, rfl⟩

/-- C5 (amended): `export_session` fails exactly when the session id is
unknown; any format other than `"txt"` (in particular `"json"`) returns the
structured payload; and format `"txt"` (the code's name for the text format)
returns a transcript containing the session title followed by every message's
content in original history order. -/
theorem C5_export_contract :
    (∀ (sid format : String) (st : St),
      export_session sid format st = ExportResult.notFound ↔
        alookup sid st.store = none) ∧
    (∀ (sid format : String) (st : St) (hist : List Message),
      alookup sid st.store = some hist → format ≠ "txt" →
      export_session sid format st =
        ExportResult.json
          { session_id := sid, metadata := alookup sid st.metadata,
            messages := messageViews sid 0 hist }) ∧
    (∀ (sid : String) (st : St) (hist : List Message) (m : Metadata),
      alookup sid st.store = some hist → alookup sid st.metadata = some m →
      ∃ c, export_session sid "txt" st = ExportResult.txt c ∧
        containsInOrder c (m.title :: hist.map Message.content)) := by
  refine ⟨?_, ?_, ?_⟩
  · intro sid format st
    cases hh : alookup sid st.store with
    | none => simp [export_session, hh]
    | some hist =>
        simp only [export_session, hh]
        split <;> simp
  · intro sid format st hist hh hformat
    simp [export_session, hh, hformat]
  · intro sid st hist m hh hm
    refine ⟨renderTxt sid (some m) (messageViews sid 0 hist), ?_, ?_⟩
    · simp [export_session, hh, hm]
    · have h := renderTxt_contains sid m (messageViews sid 0 hist)
      rwa [messageViews_map_content] at h

/-- C5 (witness): the transcript clause at the export fixture. -/
theorem C5_witness :
    ∃ c, export_session "s" "txt" exportExampleSt = ExportResult.txt c ∧
      containsInOrder c ((defaultMetadata 0).title ::
        [(⟨Sender.user, "hi".data⟩ : Message),
         ⟨Sender.assistant, "hello".data⟩].map Message.content) :=
  C5_export_contract.2.2 "s" exportExampleSt
    [⟨Sender.user, "hi".data⟩, ⟨Sender.assistant, "hello".data⟩]
    (defaultMetadata 0) (by decide) (by decide)

/-- C8 (counterexample): the claim is false as stated — a first turn whose
input is exactly `"New Chat"` auto-sets the title to `"New Chat"`, and the
next successful turn overwrites that auto-set title, because the code detects
"first turn" by comparing the title with the default string. -/
theorem C8_counterexample :
    (chat (some genOkFixture) 1 0 "s" "New Chat".data none initSt).1.isOk = true ∧
    Option.map Metadata.title
      (alookup "s"
        (chat (some genOkFixture) 1 0 "s" "New Chat".data none initSt).2.metadata)
      = some "New Chat".data ∧
    (chat (some genOkFixture) 2 0 "s" "hello".data none
      (chat (some genOkFixture) 1 0 "s" "New Chat".data none initSt).2).1.isOk
      = true ∧
    Option.map Metadata.title
      (alookup "s"
        (chat (some genOkFixture) 2 0 "s" "hello".data none
          (chat (some genOkFixture) 1 0 "s" "New Chat".data none initSt).2).2.metadata)
      = some "hello".data := by
  refine ⟨rfl, rfl, rfl, rfl⟩

/-- C8 (amended): once a session's title differs from the default
`"New Chat"` — whether auto-set or user-set — no chat turn changes it; a chat
turn can only rewrite a title that still equals the default. -/
theorem C8_title_stable_once_nondefault :
    ∀ (mf : Option ModelFn) (now pt : Nat) (sid : String) (input : List Char)
      (cfg : Option GenConfig) (st : St) (h : List Message) (m : Metadata),
      alookup sid st.store = some h → alookup sid st.metadata = some m →
      m.title ≠ "New Chat".data →
      ∃ m', alookup sid (chat mf now pt sid input cfg st).2.metadata = some m' ∧
        m'.title = m.title := by
  intro mf now pt sid input cfg st h m hs hm htitle
  cases mf with
  | none => exact ⟨m, hm, rfl⟩
  | some gen =>
      cases hg : gen h input with
      | error e =>
          rw [chat_err_known hs hg now pt cfg]
          exact ⟨m, hm, rfl⟩
      | ok reply =>
          rw [chat_ok_known hs hm hg now pt cfg]
          exact ⟨updateMetaAfterTurn now input m, alookup_ainsert_self sid _ _,
            updateMeta_title_of_ne now input m htitle⟩

/-- C8 (witness): the amended theorem applied to the established fixture
session, whose title is `"My Chat"`. -/
theorem C8_witness :
    ∃ m', alookup "s"
        (chat (some genOkFixture) 9 0 "s" "zzz".data none fixtureSt).2.metadata
        = some m' ∧
      m'.title = fixtureMeta.title :=
  C8_title_stable_once_nondefault (some genOkFixture) 9 0 "s" "zzz".data none
    fixtureSt fixtureHist fixtureMeta (by decide) (by decide) (by decide)

end NovaChat
